import Mathlib

/-!
Shallow embedding of the odbc2parquet core sources
(`src/query/batch_size_limit.rs`, `src/enum_args.rs`, `src/query/identical.rs`)
and proofs about them.

Rust `usize` values are modelled as `Nat`; overflow is made explicit with
`% 2 ^ w` at the one place it can matter (MiB-to-bytes conversion on a 32-bit
target). Fallible Rust functions returning `Result<_, anyhow::Error>` are
modelled with an explicit three-way outcome type, since the batch-size
computation can also panic (division by zero) and the decimal strategy
constructors can panic on an unsupported physical type.
-/

set_option autoImplicit false
set_option maxRecDepth 4096

namespace Odbc2Parquet

/-- Outcome of running a fallible Rust function: a returned value, a returned
`Err` with its message, or a panic with its message. -/
inductive RustResult (α : Type) where
  | ok (value : α)
  | err (message : String)
  | panicked (message : String)
  deriving DecidableEq, Repr

/-- `DEFAULT_BATCH_SIZE_BYTES` from `batch_size_limit.rs`: selected by
`cfg(target_pointer_width)`, 2 GiB on 64-bit targets and 1 GiB on 32-bit
targets. The flag `w64` is true for a 64-bit address space. -/
def DEFAULT_BATCH_SIZE_BYTES (w64 : Bool) : Nat :=
  if w64 then 2 * 1024 * 1024 * 1024 else 1024 * 1024 * 1024

/-- `DEFAULT_BATCH_SIZE_ROWS` from `batch_size_limit.rs`: `u16::MAX as usize`. -/
def DEFAULT_BATCH_SIZE_ROWS : Nat := 65535

/-- Bit width of `usize` on the modelled target. -/
def usizeWidth (w64 : Bool) : Nat := if w64 then 64 else 32

/-- The `BatchSizeLimit` enum from `batch_size_limit.rs`. -/
inductive BatchSizeLimit where
  | Rows (n : Nat)
  | Bytes (n : Nat)
  | Both (rows : Nat) (bytes : Nat)
  deriving DecidableEq, Repr

/-- `BatchSizeLimit::new`: resolves the optional row cap (`Option<usize>`) and
the optional memory cap in MiB (`Option<u32>`). The MiB value is scaled by
`1024 * 1024` in `usize` arithmetic, hence the reduction modulo `2 ^ usizeWidth`
(release-mode wrapping semantics; on a 64-bit target the product of a `u32`
with `2 ^ 20` never wraps). -/
def BatchSizeLimit.new (w64 : Bool) (num_rows_limit : Option Nat)
    (memory_limit_mib : Option Nat) : BatchSizeLimit :=
  let bytes := memory_limit_mib.map (fun mib => mib * 1024 * 1024 % 2 ^ usizeWidth w64)
  match num_rows_limit, bytes with
  | some rows, none => BatchSizeLimit.Rows rows
  | none, some bytes => BatchSizeLimit.Bytes bytes
  | none, none => BatchSizeLimit.Both DEFAULT_BATCH_SIZE_ROWS (DEFAULT_BATCH_SIZE_BYTES w64)
  | some rows, some bytes => BatchSizeLimit.Both rows bytes

/-- Text of the capacity error format string before the first placeholder. -/
def capacityMsgPre : String :=
  "Memory required to hold a single row is larger than the limit. Memory Limit: "

/-- Text of the capacity error format string between the two placeholders. -/
def capacityMsgMid : String := " bytes, Memory per row: "

/-- Text of the capacity error format string after the second placeholder. -/
def capacityMsgSuf : String :=
  " bytes.\nYou can use either \x27--batch-size-row\x27 or \x27--batch-size-mib\x27 to raise the limit. You may also try more verbose output to see which columns require so much memory and consider casting them into something smaller."

/-- The capacity error message built by the `bail!` in `batch_size_in_rows`,
with the two `{}` placeholders of the Rust format string filled in with the
byte budget and the per-row cost. -/
def capacityErrorMsg (num_bytes total_mem_usage_per_row : Nat) : String :=
  capacityMsgPre ++ toString num_bytes ++ capacityMsgMid
    ++ toString total_mem_usage_per_row ++ capacityMsgSuf

/-- Message of the Rust runtime panic raised by integer division by zero. -/
def divByZeroMsg : String := "attempt to divide by zero"

/-- The closure `to_num_rows` inside `batch_size_in_rows`. Rust `/` on `usize`
panics when the divisor is zero; otherwise the quotient truncates, and a zero
quotient is turned into the capacity error. -/
def to_num_rows (total_mem_usage_per_row num_bytes : Nat) : RustResult Nat :=
  if total_mem_usage_per_row = 0 then
    RustResult.panicked divByZeroMsg
  else if num_bytes / total_mem_usage_per_row = 0 then
    RustResult.err (capacityErrorMsg num_bytes total_mem_usage_per_row)
  else
    RustResult.ok (num_bytes / total_mem_usage_per_row)

/-- `BatchSizeLimit::batch_size_in_rows` from `batch_size_limit.rs`. -/
def BatchSizeLimit.batch_size_in_rows (limit : BatchSizeLimit)
    (total_mem_usage_per_row : Nat) : RustResult Nat :=
  match limit with
  | BatchSizeLimit.Rows rows => RustResult.ok rows
  | BatchSizeLimit.Bytes num_bytes => to_num_rows total_mem_usage_per_row num_bytes
  | BatchSizeLimit.Both rows bytes =>
    match to_num_rows total_mem_usage_per_row bytes with
    | RustResult.ok limit_rows => RustResult.ok (min limit_rows rows)
    | RustResult.err m => RustResult.err m
    | RustResult.panicked m => RustResult.panicked m

/-- The `parquet::basic::Compression` enum (target codec identifiers) as used
by `enum_args.rs`. -/
inductive Compression where
  | UNCOMPRESSED
  | SNAPPY
  | GZIP
  | LZO
  | BROTLI
  | LZ4
  | ZSTD
  deriving DecidableEq, Repr

/-- The `CompressionVariants` command-line enum from `enum_args.rs`. -/
inductive CompressionVariants where
  | Uncompressed
  | Gzip
  | Lz4
  | Lz0
  | Zstd
  | Snappy
  | Brotli
  deriving DecidableEq, Repr

/-- `CompressionVariants::as_compression` from `enum_args.rs`. -/
def CompressionVariants.as_compression : CompressionVariants → Compression
  | CompressionVariants.Uncompressed => Compression.UNCOMPRESSED
  | CompressionVariants.Gzip => Compression.GZIP
  | CompressionVariants.Lz4 => Compression.LZ4
  | CompressionVariants.Lz0 => Compression.LZO
  | CompressionVariants.Zstd => Compression.ZSTD
  | CompressionVariants.Snappy => Compression.ZSTD
  | CompressionVariants.Brotli => Compression.BROTLI

/-- The `parquet::basic::Encoding` enum (target encoding identifiers) as used
by `enum_args.rs`. -/
inductive Encoding where
  | PLAIN
  | PLAIN_DICTIONARY
  | RLE
  | BIT_PACKED
  | DELTA_BINARY_PACKED
  | DELTA_LENGTH_BYTE_ARRAY
  | DELTA_BYTE_ARRAY
  | RLE_DICTIONARY
  | BYTE_STREAM_SPLIT
  deriving DecidableEq, Repr

/-- The error message of the `bail!` in `encoding_from_str`, with the `{}`
placeholder filled with the unrecognized token. -/
def unknownEncodingMsg (source : String) : String :=
  "Sorry, I do not know a column encoding called \x27" ++ source ++ "\x27."

/-- `encoding_from_str` from `enum_args.rs`. The Rust `match` on the string is
a sequential comparison against the five accepted literals; the arms for
"bit-packed" and "rle-dictionary" are commented out in the source, so those
tokens fall to the catch-all error arm. -/
def encoding_from_str (source : String) : Except String Encoding :=
  if source = "plain" then Except.ok Encoding.PLAIN
  else if source = "delta-binary-packed" then Except.ok Encoding.DELTA_BINARY_PACKED
  else if source = "delta-byte-array" then Except.ok Encoding.DELTA_BYTE_ARRAY
  else if source = "delta-length-byte-array" then Except.ok Encoding.DELTA_LENGTH_BYTE_ARRAY
  else if source = "rle" then Except.ok Encoding.RLE
  else Except.error (unknownEncodingMsg source)

/-- The error message of `column_encoding_from_str` when the separator is
missing. -/
def missingSeparatorMsg : String :=
  "Column encoding must be parsed in format: \x27COLUMN_NAME:ENCODING\x27"

/-- `str::rfind` specialised to a single character, over the character list of
the string: index of the last occurrence, if any. (For the ASCII character
`:` the Rust byte index and the character index designate the same split
point.) -/
def rfindChar (cs : List Char) (c : Char) : Option Nat :=
  match cs with
  | [] => none
  | x :: xs =>
    match rfindChar xs c with
    | some i => some (i + 1)
    | none => if x = c then some 0 else none

/-- `column_encoding_from_str` from `enum_args.rs`: find the last `:`, split
there (`split_at` keeps the separator at the head of the right part, so the
encoding token is the right part without its first character), parse the
encoding, propagate its failure. -/
def column_encoding_from_str (source : String) : Except String (String × Encoding) :=
  match rfindChar source.data ':' with
  | none => Except.error missingSeparatorMsg
  | some pos =>
    let name : String := String.mk (source.data.take pos)
    let encoding : List Char := source.data.drop pos
    match encoding_from_str (String.mk (encoding.drop 1)) with
    | Except.ok e => Except.ok (name, e)
    | Except.error m => Except.error m

/-- The `parquet::basic::Type` enum of physical types (`PhysicalType` in
`identical.rs`). -/
inductive PhysicalType where
  | BOOLEAN
  | INT32
  | INT64
  | INT96
  | FLOAT
  | DOUBLE
  | BYTE_ARRAY
  | FIXED_LEN_BYTE_ARRAY
  deriving DecidableEq, Repr

/-- The subset of `parquet::basic::ConvertedType` used by `identical.rs`. -/
inductive ConvertedType where
  | NONE
  | INT_32
  | INT_64
  | DECIMAL
  deriving DecidableEq, Repr

/-- `parquet::basic::Repetition` as used by `identical.rs`. -/
inductive Repetition where
  | REQUIRED
  | OPTIONAL
  deriving DecidableEq, Repr

/-- The column schema fragment built by the strategies' `parquet_type`:
primitive type builder output with name, physical type, repetition, converted
type, and the optional (precision, scale) pair. `none` models the builder's
unset state for precision and scale. -/
structure SchemaFragment where
  name : String
  physical_type : PhysicalType
  repetition : Repetition
  converted_type : ConvertedType
  precision : Option Int
  scale : Option Int
  deriving DecidableEq, Repr

/-- The panic message of the `_ => panic!(..)` arm in `decimal_with_precision`
(identical in `IdenticalOptional` and `IdenticalRequired`). -/
def decimalPanicMsg : String :=
  "Only INT32 and INT64 are allowed to represent Decimal with scale 0"

/-- The `IdenticalOptional<Pdt>` strategy struct from `identical.rs`. The
phantom parquet data type parameter `Pdt` is replaced by an explicit
`physical_type` field holding `Pdt::get_physical_type()`. -/
structure IdenticalOptional where
  physical_type : PhysicalType
  converted_type : ConvertedType
  precision : Option Int
  deriving DecidableEq, Repr

/-- `IdenticalOptional::decimal_with_precision` from `identical.rs`. With
`prefer_int_over_decimal` the construction panics unless the physical type is
one of the two supported integer widths. -/
def IdenticalOptional.decimal_with_precision (physical_type : PhysicalType)
    (precision : Int) (prefer_int_over_decimal : Bool) : RustResult IdenticalOptional :=
  if prefer_int_over_decimal then
    match physical_type with
    | PhysicalType.INT32 =>
      RustResult.ok { physical_type := physical_type, converted_type := ConvertedType.INT_32, precision := none }
    | PhysicalType.INT64 =>
      RustResult.ok { physical_type := physical_type, converted_type := ConvertedType.INT_64, precision := none }
    | _ => RustResult.panicked decimalPanicMsg
  else
    RustResult.ok { physical_type := physical_type, converted_type := ConvertedType.DECIMAL, precision := some precision }

/-- `IdenticalOptional::parquet_type` from `identical.rs`: OPTIONAL repetition,
the stored converted type, and — only when a precision is stored — scale 0 and
that precision. -/
def IdenticalOptional.parquet_type (s : IdenticalOptional) (name : String) : SchemaFragment :=
  { name := name
    physical_type := s.physical_type
    repetition := Repetition.OPTIONAL
    converted_type := s.converted_type
    precision := s.precision
    scale := match s.precision with | some _ => some 0 | none => none }

/-- The `IdenticalRequired<Pdt>` strategy struct from `identical.rs`, with the
phantom type parameter replaced by an explicit `physical_type` field. -/
structure IdenticalRequired where
  physical_type : PhysicalType
  converted_type : ConvertedType
  precision : Option Int
  deriving DecidableEq, Repr

/-- `IdenticalRequired::decimal_with_precision` from `identical.rs` (the source
duplicates the body of the `IdenticalOptional` constructor verbatim). -/
def IdenticalRequired.decimal_with_precision (physical_type : PhysicalType)
    (precision : Int) (prefer_int_over_decimal : Bool) : RustResult IdenticalRequired :=
  if prefer_int_over_decimal then
    match physical_type with
    | PhysicalType.INT32 =>
      RustResult.ok { physical_type := physical_type, converted_type := ConvertedType.INT_32, precision := none }
    | PhysicalType.INT64 =>
      RustResult.ok { physical_type := physical_type, converted_type := ConvertedType.INT_64, precision := none }
    | _ => RustResult.panicked decimalPanicMsg
  else
    RustResult.ok { physical_type := physical_type, converted_type := ConvertedType.DECIMAL, precision := some precision }

/-- `IdenticalRequired::parquet_type` from `identical.rs`: like the optional
variant but with REQUIRED repetition. -/
def IdenticalRequired.parquet_type (s : IdenticalRequired) (name : String) : SchemaFragment :=
  { name := name
    physical_type := s.physical_type
    repetition := Repetition.REQUIRED
    converted_type := s.converted_type
    precision := s.precision
    scale := match s.precision with | some _ => some 0 | none => none }

/-- A target column writer, modelled by the sequence of logical slots written
to it so far: `some v` is a physical value, `none` a null marker. -/
structure ColumnWriter (α : Type) where
  slots : List (Option α)
  deriving DecidableEq, Repr

/-- Modelled from the spec: `ParquetBuffer::write_optional` lives in
`src/parquet_buffer.rs`, which is not among the provided sources. Per the
spec, it forwards each element of the iterator to the column writer with an
explicit null/definition pattern: a physical value for every present row and
a null marker for every absent row, preserving row order. -/
def ParquetBuffer.write_optional {α : Type} (w : ColumnWriter α)
    (it : List (Option α)) : ColumnWriter α :=
  { slots := w.slots ++ it }

/-- Modelled from the spec: the external parquet crate's
`ColumnWriterImpl::write_batch` called with no definition and no repetition
levels (the bulk path) writes every value of the slice as a required logical
value, in order, with zero null markers. -/
def ColumnWriter.write_batch {α : Type} (w : ColumnWriter α)
    (values : List α) : ColumnWriter α :=
  { slots := w.slots ++ values.map some }

/-- `IdenticalOptional::copy_odbc_to_parquet` from `identical.rs`: reads the
column view through the nullable accessor and hands the per-row
present/absent sequence to `ParquetBuffer::write_optional`. -/
def IdenticalOptional.copy_odbc_to_parquet {α : Type} (w : ColumnWriter α)
    (column_view : List (Option α)) : ColumnWriter α :=
  ParquetBuffer.write_optional w column_view

/-- `IdenticalRequired::copy_odbc_to_parquet` from `identical.rs`: reads the
column view through the dense accessor and hands the raw slice to the
writer's bulk `write_batch` path. -/
def IdenticalRequired.copy_odbc_to_parquet {α : Type} (w : ColumnWriter α)
    (column_view : List α) : ColumnWriter α :=
  ColumnWriter.write_batch w column_view

/-! ## Helper lemmas -/

theorem to_num_rows_pos {c b n : Nat} (h : to_num_rows c b = RustResult.ok n) : 1 ≤ n := by
  unfold to_num_rows at h
  split_ifs at h <;> simp_all <;> omega

theorem to_num_rows_not_panicked {c b : Nat} (hc : c ≠ 0) (m : String) :
    to_num_rows c b ≠ RustResult.panicked m := by
  unfold to_num_rows
  split_ifs with h1 h2
  · exact absurd h1 hc
  · exact fun h => RustResult.noConfusion h
  · exact fun h => RustResult.noConfusion h

/-! ## Claims about the batch size governor -/

/-- Claim C1 as stated is false on the code: `Rows(0)` succeeds and returns
row count 0, so the "result is always ≥ 1 on success, never 0" invariant does
not extend to a limit constructed as `Rows(0)`. -/
theorem claimC1_counterexample :
    (BatchSizeLimit.Rows 0).batch_size_in_rows 1 = RustResult.ok 0 ∧
    ¬ (∀ (limit : BatchSizeLimit) (c n : Nat),
        limit.batch_size_in_rows c = RustResult.ok n → 1 ≤ n) := by
  refine ⟨rfl, fun h => ?_⟩
  have := h (BatchSizeLimit.Rows 0) 1 0 rfl
  omega

/-- Claim C1 (amended): on success, `batch_size_in_rows` returns at least 1
for the `Bytes` variant always, and for the `Both` variant whenever its rows
component is at least 1; `Rows(r)` returns `r` unconditionally, so for the
`Rows` variant (and for `Both` with rows component 0) the returned count can
be 0. -/
theorem claimC1 :
    (∀ b c n, (BatchSizeLimit.Bytes b).batch_size_in_rows c = RustResult.ok n → 1 ≤ n) ∧
    (∀ r b c n, 1 ≤ r →
      (BatchSizeLimit.Both r b).batch_size_in_rows c = RustResult.ok n → 1 ≤ n) ∧
    (∀ r c, (BatchSizeLimit.Rows r).batch_size_in_rows c = RustResult.ok r) := by
  refine ⟨?_, ?_, ?_⟩
  · intro b c n h
    exact to_num_rows_pos h
  · intro r b c n hr h
    simp only [BatchSizeLimit.batch_size_in_rows] at h
    cases htn : to_num_rows c b with
    | ok lr =>
      rw [htn] at h
      injection h with h3
      have := to_num_rows_pos htn
      omega
    | err m => rw [htn] at h; exact RustResult.noConfusion h
    | panicked m => rw [htn] at h; exact RustResult.noConfusion h
  · intro r c
    rfl

/-- Witness for the amended claim C1 at concrete inputs. -/
theorem claimC1_witness :
    1 ≤ 3 ∧ 1 ≤ 2 ∧ (BatchSizeLimit.Rows 7).batch_size_in_rows 5 = RustResult.ok 7 :=
  ⟨claimC1.1 10 3 3 rfl, claimC1.2.1 2 10 3 2 (by decide) rfl, claimC1.2.2 7 5⟩

/-- Claim C2: `Both{rows, bytes}` returns `min(rows, bytes / cost)` whenever
that quotient is at least 1, and it fails with error `e` exactly when the
`Bytes(bytes)`-only computation fails with the same error `e`. -/
theorem claimC2 :
    (∀ r b c, 1 ≤ b / c →
      (BatchSizeLimit.Both r b).batch_size_in_rows c = RustResult.ok (min r (b / c))) ∧
    (∀ r b c e, (BatchSizeLimit.Both r b).batch_size_in_rows c = RustResult.err e ↔
      (BatchSizeLimit.Bytes b).batch_size_in_rows c = RustResult.err e) := by
  constructor
  · intro r b c h
    have hc : c ≠ 0 := by
      intro h0
      rw [h0, Nat.div_zero] at h
      omega
    have hq : b / c ≠ 0 := by omega
    unfold BatchSizeLimit.batch_size_in_rows to_num_rows
    simp [hc, hq, Nat.min_comm]
  · intro r b c e
    cases htn : to_num_rows c b <;>
      simp [BatchSizeLimit.batch_size_in_rows, htn]

/-- Witness for claim C2 at concrete inputs. -/
theorem claimC2_witness :
    1 ≤ 10 / 3 ∧
    (BatchSizeLimit.Both 2 10).batch_size_in_rows 3 = RustResult.ok (min 2 (10 / 3)) ∧
    ((BatchSizeLimit.Both 2 2).batch_size_in_rows 3 = RustResult.err (capacityErrorMsg 2 3) ↔
      (BatchSizeLimit.Bytes 2).batch_size_in_rows 3 = RustResult.err (capacityErrorMsg 2 3)) :=
  ⟨by decide, claimC2.1 2 10 3 (by decide), claimC2.2 2 2 3 (capacityErrorMsg 2 3)⟩

/-- Claim C3: for positive byte budget `b` and positive per-row cost `c`,
`Bytes(b)` returns the truncating quotient `b / c` when `c ≤ b`, fails exactly
when `b < c`, and the capacity error message contains the byte budget, the
per-row cost, and both override flags. -/
theorem claimC3 (b c : Nat) (hb : 0 < b) (hc : 0 < c) :
    (c ≤ b → (BatchSizeLimit.Bytes b).batch_size_in_rows c = RustResult.ok (b / c)) ∧
    ((∃ e, (BatchSizeLimit.Bytes b).batch_size_in_rows c = RustResult.err e) ↔ b < c) ∧
    (b < c →
      (BatchSizeLimit.Bytes b).batch_size_in_rows c = RustResult.err (capacityErrorMsg b c)) ∧
    (toString b).data <:+: (capacityErrorMsg b c).data ∧
    (toString c).data <:+: (capacityErrorMsg b c).data ∧
    "--batch-size-row".data <:+: (capacityErrorMsg b c).data ∧
    "--batch-size-mib".data <:+: (capacityErrorMsg b c).data := by
  have hc0 : c ≠ 0 := by omega
  have hdata : (capacityErrorMsg b c).data =
      capacityMsgPre.data ++ ((toString b).data ++ (capacityMsgMid.data
        ++ ((toString c).data ++ capacityMsgSuf.data))) := by
    simp [capacityErrorMsg, String.data_append]
  have hsuf : capacityMsgSuf.data <:+: (capacityErrorMsg b c).data := by
    rw [hdata]
    exact ⟨capacityMsgPre.data ++ (toString b).data ++ capacityMsgMid.data ++ (toString c).data,
      [], by simp⟩
  refine ⟨?_, ⟨?_, ?_⟩, ?_, ?_, ?_, ?_, ?_⟩
  · intro hle
    have hq : b / c ≠ 0 := by
      have := (Nat.one_le_div_iff hc).mpr hle
      omega
    unfold BatchSizeLimit.batch_size_in_rows to_num_rows
    simp [hc0, hq]
  · rintro ⟨e, he⟩
    simp only [BatchSizeLimit.batch_size_in_rows] at he
    unfold to_num_rows at he
    split_ifs at he with h1 h2
    exact (Nat.div_eq_zero_iff hc).mp h2
  · intro hlt
    refine ⟨capacityErrorMsg b c, ?_⟩
    have hq : b / c = 0 := Nat.div_eq_of_lt hlt
    unfold BatchSizeLimit.batch_size_in_rows to_num_rows
    simp [hc0, hq]
  · intro hlt
    have hq : b / c = 0 := Nat.div_eq_of_lt hlt
    unfold BatchSizeLimit.batch_size_in_rows to_num_rows
    simp [hc0, hq]
  · rw [hdata]
    exact ⟨capacityMsgPre.data,
      capacityMsgMid.data ++ ((toString c).data ++ capacityMsgSuf.data), by simp⟩
  · rw [hdata]
    exact ⟨capacityMsgPre.data ++ (toString b).data ++ capacityMsgMid.data,
      capacityMsgSuf.data, by simp⟩
  · have h1 : "--batch-size-row".data <:+: capacityMsgSuf.data := by decide
    exact h1.trans hsuf
  · have h1 : "--batch-size-mib".data <:+: capacityMsgSuf.data := by decide
    exact h1.trans hsuf

/-- Witness for claim C3 at concrete inputs. -/
theorem claimC3_witness :
    0 < 10 ∧ 0 < 3 ∧
    (BatchSizeLimit.Bytes 10).batch_size_in_rows 3 = RustResult.ok (10 / 3) ∧
    (BatchSizeLimit.Bytes 2).batch_size_in_rows 3 = RustResult.err (capacityErrorMsg 2 3) :=
  ⟨by decide, by decide, (claimC3 10 3 (by decide) (by decide)).1 (by decide),
    (claimC3 2 3 (by decide) (by decide)).2.2.1 (by decide)⟩

/-- Claim C9: construction resolves a rows-only cap to `Rows`, a MiB-only cap
to `Bytes(mib * 1024 * 1024)`, both caps to `Both`, and no caps to
`Both{rows: 65535, bytes: 2 GiB}` on 64-bit targets (1 GiB on 32-bit). -/
theorem claimC9 :
    (∀ w64 r, BatchSizeLimit.new w64 (some r) none = BatchSizeLimit.Rows r) ∧
    (∀ mib, mib < 2 ^ 32 →
      BatchSizeLimit.new true none (some mib) = BatchSizeLimit.Bytes (mib * 1024 * 1024)) ∧
    (∀ r mib, mib < 2 ^ 32 →
      BatchSizeLimit.new true (some r) (some mib) = BatchSizeLimit.Both r (mib * 1024 * 1024)) ∧
    BatchSizeLimit.new true none none = BatchSizeLimit.Both 65535 (2 * 1024 * 1024 * 1024) ∧
    BatchSizeLimit.new false none none = BatchSizeLimit.Both 65535 (1024 * 1024 * 1024) := by
  refine ⟨?_, ?_, ?_, by decide, by decide⟩
  · intro w64 r
    rfl
  · intro mib h
    have hlt : mib * 1024 * 1024 < 18446744073709551616 := by omega
    simp [BatchSizeLimit.new, usizeWidth, Nat.mod_eq_of_lt hlt]
  · intro r mib h
    have hlt : mib * 1024 * 1024 < 18446744073709551616 := by omega
    simp [BatchSizeLimit.new, usizeWidth, Nat.mod_eq_of_lt hlt]

/-- Witness for claim C9 at concrete inputs. -/
theorem claimC9_witness :
    (512 : Nat) < 2 ^ 32 ∧
    BatchSizeLimit.new true none (some 512) = BatchSizeLimit.Bytes (512 * 1024 * 1024) ∧
    BatchSizeLimit.new true (some 100) (some 512) = BatchSizeLimit.Both 100 (512 * 1024 * 1024) :=
  ⟨by decide, claimC9.2.1 512 (by decide), claimC9.2.2.1 100 512 (by decide)⟩

/-- Claim C10: with a per-row cost of 0 the `Bytes` and `Both` variants hit the
unguarded division and panic (no error value is returned); with any positive
per-row cost no variant panics. -/
theorem claimC10 :
    (∀ b, (BatchSizeLimit.Bytes b).batch_size_in_rows 0 = RustResult.panicked divByZeroMsg) ∧
    (∀ r b, (BatchSizeLimit.Both r b).batch_size_in_rows 0 = RustResult.panicked divByZeroMsg) ∧
    (∀ (limit : BatchSizeLimit) (c : Nat) (m : String), 0 < c →
      limit.batch_size_in_rows c ≠ RustResult.panicked m) := by
  refine ⟨fun b => rfl, fun r b => rfl, ?_⟩
  intro limit c m hc h
  have hc0 : c ≠ 0 := by omega
  cases limit with
  | Rows r => exact RustResult.noConfusion h
  | Bytes b => exact to_num_rows_not_panicked hc0 m h
  | Both r b =>
    simp only [BatchSizeLimit.batch_size_in_rows] at h
    cases htn : to_num_rows c b with
    | ok lr => rw [htn] at h; exact RustResult.noConfusion h
    | err m2 => rw [htn] at h; exact RustResult.noConfusion h
    | panicked m2 => exact to_num_rows_not_panicked hc0 m2 htn

/-- Witness for claim C10 at concrete inputs. -/
theorem claimC10_witness :
    0 < 3 ∧ (BatchSizeLimit.Bytes 10).batch_size_in_rows 3 ≠ RustResult.panicked divByZeroMsg :=
  ⟨by decide, claimC10.2.2 (BatchSizeLimit.Bytes 10) 3 divByZeroMsg (by decide)⟩

/-! ## Claims about the identical strategies -/

/-- Claim C4: for a batch of N rows, the `Required` transfer appends exactly N
logical values through the bulk path with zero null markers and in original
order (slot `len + i` holds `some (dense[i])`), and the `Optional` transfer
appends exactly N logical slots with slot `len + i` equal to row `i` of the
view: a physical value for every present row and a null marker at precisely
each absent row position. -/
theorem claimC4 {α : Type} (w : ColumnWriter α) (dense : List α)
    (nullable : List (Option α)) :
    (IdenticalRequired.copy_odbc_to_parquet w dense).slots.length
      = w.slots.length + dense.length ∧
    (∀ i, (IdenticalRequired.copy_odbc_to_parquet w dense).slots[w.slots.length + i]?
      = (dense[i]?).map some) ∧
    (IdenticalOptional.copy_odbc_to_parquet w nullable).slots.length
      = w.slots.length + nullable.length ∧
    (∀ i, (IdenticalOptional.copy_odbc_to_parquet w nullable).slots[w.slots.length + i]?
      = nullable[i]?) := by
  refine ⟨?_, ?_, ?_, ?_⟩
  · simp [IdenticalRequired.copy_odbc_to_parquet, ColumnWriter.write_batch]
  · intro i
    show (w.slots ++ dense.map some)[w.slots.length + i]? = (dense[i]?).map some
    rw [List.getElem?_append_right (Nat.le_add_right _ _), Nat.add_sub_cancel_left]
    exact List.getElem?_map some dense i
  · simp [IdenticalOptional.copy_odbc_to_parquet, ParquetBuffer.write_optional]
  · intro i
    show (w.slots ++ nullable)[w.slots.length + i]? = nullable[i]?
    rw [List.getElem?_append_right (Nat.le_add_right _ _), Nat.add_sub_cancel_left]

/-- Claim C5: for both strategy variants, `decimal_with_precision` with the
integer preference yields the INT_32 annotation (no precision) on the 32-bit
kind, the INT_64 annotation (no precision) on the 64-bit kind, panics on every
other physical kind, and without the preference yields the DECIMAL annotation
with the given precision; the resulting schema fragment stores that precision
with scale 0. -/
theorem claimC5 (p : Int) :
    (IdenticalOptional.decimal_with_precision PhysicalType.INT32 p true
      = RustResult.ok { physical_type := PhysicalType.INT32, converted_type := ConvertedType.INT_32, precision := none } ∧
    IdenticalOptional.decimal_with_precision PhysicalType.INT64 p true
      = RustResult.ok { physical_type := PhysicalType.INT64, converted_type := ConvertedType.INT_64, precision := none } ∧
    (∀ pt, pt ≠ PhysicalType.INT32 → pt ≠ PhysicalType.INT64 →
      IdenticalOptional.decimal_with_precision pt p true = RustResult.panicked decimalPanicMsg) ∧
    (∀ pt, IdenticalOptional.decimal_with_precision pt p false
      = RustResult.ok { physical_type := pt, converted_type := ConvertedType.DECIMAL, precision := some p }) ∧
    (∀ pt name,
      (IdenticalOptional.parquet_type { physical_type := pt, converted_type := ConvertedType.DECIMAL, precision := some p } name).precision = some p ∧
      (IdenticalOptional.parquet_type { physical_type := pt, converted_type := ConvertedType.DECIMAL, precision := some p } name).scale = some 0)) ∧
    (IdenticalRequired.decimal_with_precision PhysicalType.INT32 p true
      = RustResult.ok { physical_type := PhysicalType.INT32, converted_type := ConvertedType.INT_32, precision := none } ∧
    IdenticalRequired.decimal_with_precision PhysicalType.INT64 p true
      = RustResult.ok { physical_type := PhysicalType.INT64, converted_type := ConvertedType.INT_64, precision := none } ∧
    (∀ pt, pt ≠ PhysicalType.INT32 → pt ≠ PhysicalType.INT64 →
      IdenticalRequired.decimal_with_precision pt p true = RustResult.panicked decimalPanicMsg) ∧
    (∀ pt, IdenticalRequired.decimal_with_precision pt p false
      = RustResult.ok { physical_type := pt, converted_type := ConvertedType.DECIMAL, precision := some p }) ∧
    (∀ pt name,
      (IdenticalRequired.parquet_type { physical_type := pt, converted_type := ConvertedType.DECIMAL, precision := some p } name).precision = some p ∧
      (IdenticalRequired.parquet_type { physical_type := pt, converted_type := ConvertedType.DECIMAL, precision := some p } name).scale = some 0)) := by
  refine ⟨⟨rfl, rfl, ?_, fun pt => rfl, fun pt name => ⟨rfl, rfl⟩⟩,
    ⟨rfl, rfl, ?_, fun pt => rfl, fun pt name => ⟨rfl, rfl⟩⟩⟩
  · intro pt h32 h64
    cases pt <;> first | rfl | exact absurd rfl h32 | exact absurd rfl h64
  · intro pt h32 h64
    cases pt <;> first | rfl | exact absurd rfl h32 | exact absurd rfl h64

/-- Witness for claim C5 at concrete inputs. -/
theorem claimC5_witness :
    IdenticalOptional.decimal_with_precision PhysicalType.FLOAT 9 true
      = RustResult.panicked decimalPanicMsg ∧
    IdenticalRequired.decimal_with_precision PhysicalType.BYTE_ARRAY 9 true
      = RustResult.panicked decimalPanicMsg :=
  ⟨(claimC5 9).1.2.2.1 PhysicalType.FLOAT (by decide) (by decide),
    (claimC5 9).2.2.2.1 PhysicalType.BYTE_ARRAY (by decide) (by decide)⟩

/-! ## Claims about the enumerations -/

/-- Claim C6: `as_compression` maps every variant to its identically-named
codec identifier except `Snappy`, which is aliased to `ZSTD` rather than the
snappy identifier. -/
theorem claimC6 :
    CompressionVariants.as_compression CompressionVariants.Uncompressed = Compression.UNCOMPRESSED ∧
    CompressionVariants.as_compression CompressionVariants.Gzip = Compression.GZIP ∧
    CompressionVariants.as_compression CompressionVariants.Lz4 = Compression.LZ4 ∧
    CompressionVariants.as_compression CompressionVariants.Lz0 = Compression.LZO ∧
    CompressionVariants.as_compression CompressionVariants.Zstd = Compression.ZSTD ∧
    CompressionVariants.as_compression CompressionVariants.Brotli = Compression.BROTLI ∧
    CompressionVariants.as_compression CompressionVariants.Snappy = Compression.ZSTD ∧
    CompressionVariants.as_compression CompressionVariants.Snappy ≠ Compression.SNAPPY := by
  decide

/-- Claim C7: `encoding_from_str` succeeds exactly on the five allow-listed
tokens, and every other string (including "bit-packed" and "rle-dictionary")
fails with an error naming the unrecognized token. -/
theorem claimC7 :
    encoding_from_str "plain" = Except.ok Encoding.PLAIN ∧
    encoding_from_str "delta-binary-packed" = Except.ok Encoding.DELTA_BINARY_PACKED ∧
    encoding_from_str "delta-byte-array" = Except.ok Encoding.DELTA_BYTE_ARRAY ∧
    encoding_from_str "delta-length-byte-array" = Except.ok Encoding.DELTA_LENGTH_BYTE_ARRAY ∧
    encoding_from_str "rle" = Except.ok Encoding.RLE ∧
    (∀ s : String, s ≠ "plain" → s ≠ "delta-binary-packed" → s ≠ "delta-byte-array" →
      s ≠ "delta-length-byte-array" → s ≠ "rle" →
      encoding_from_str s = Except.error (unknownEncodingMsg s) ∧
      s.data <:+: (unknownEncodingMsg s).data) := by
  refine ⟨rfl, rfl, rfl, rfl, rfl, ?_⟩
  intro s h1 h2 h3 h4 h5
  constructor
  · simp [encoding_from_str, h1, h2, h3, h4, h5]
  · refine ⟨"Sorry, I do not know a column encoding called \x27".data, "\x27.".data, ?_⟩
    simp [unknownEncodingMsg, String.data_append]

/-- Witness for claim C7 at concrete inputs: the two deliberately excluded
target-format identifiers are rejected like any unrecognized token. -/
theorem claimC7_witness :
    encoding_from_str "bit-packed" = Except.error (unknownEncodingMsg "bit-packed") ∧
    encoding_from_str "rle-dictionary" = Except.error (unknownEncodingMsg "rle-dictionary") :=
  ⟨(claimC7.2.2.2.2.2 "bit-packed" (by decide) (by decide) (by decide) (by decide)
      (by decide)).1,
    (claimC7.2.2.2.2.2 "rle-dictionary" (by decide) (by decide) (by decide) (by decide)
      (by decide)).1⟩

theorem rfindChar_eq_none {cs : List Char} {c : Char} (h : c ∉ cs) : rfindChar cs c = none := by
  induction cs with
  | nil => rfl
  | cons x xs ih =>
    simp only [List.mem_cons, not_or] at h
    unfold rfindChar
    rw [ih h.2, if_neg (Ne.symm h.1)]

theorem rfindChar_append {a b : List Char} {c : Char} (h : c ∉ b) :
    rfindChar (a ++ c :: b) c = some a.length := by
  induction a with
  | nil =>
    simp only [List.nil_append]
    unfold rfindChar
    rw [rfindChar_eq_none h]
    simp
  | cons x xs ih =>
    simp only [List.cons_append]
    unfold rfindChar
    rw [ih]
    simp

/-- Claim C8: `column_encoding_from_str` splits on the last colon — the text
before it is the column name and the text after it is parsed as the encoding
(with that parse's failure propagated) — and an input with no colon fails with
the error naming the expected COLUMN_NAME:ENCODING format. -/
theorem claimC8 :
    (∀ s : String, ':' ∉ s.data →
      column_encoding_from_str s = Except.error missingSeparatorMsg) ∧
    (∀ (a b : List Char), ':' ∉ b →
      column_encoding_from_str (String.mk (a ++ ':' :: b))
        = (encoding_from_str (String.mk b)).map (fun e => (String.mk a, e))) ∧
    column_encoding_from_str "price:rle" = Except.ok ("price", Encoding.RLE) ∧
    column_encoding_from_str "a:b:plain" = Except.ok ("a:b", Encoding.PLAIN) ∧
    column_encoding_from_str "noseparator" = Except.error missingSeparatorMsg := by
  refine ⟨?_, ?_, rfl, rfl, rfl⟩
  · intro s h
    unfold column_encoding_from_str
    rw [rfindChar_eq_none h]
  · intro a b h
    unfold column_encoding_from_str
    rw [show (String.mk (a ++ ':' :: b)).data = a ++ ':' :: b from rfl]
    rw [rfindChar_append h]
    simp only [List.take_left, List.drop_left]
    cases he : encoding_from_str (String.mk b) <;> simp [he, Except.map]

/-- Witness for claim C8 at concrete inputs. -/
theorem claimC8_witness :
    column_encoding_from_str "nocolon" = Except.error missingSeparatorMsg ∧
    column_encoding_from_str (String.mk (['x'] ++ ':' :: ['r', 'l', 'e']))
      = (encoding_from_str (String.mk ['r', 'l', 'e'])).map (fun e => (String.mk ['x'], e)) :=
  ⟨claimC8.1 "nocolon" (by decide), claimC8.2.1 ['x'] ['r', 'l', 'e'] (by decide)⟩

end Odbc2Parquet
